import Mathlib

/-
  Verification development for the mcp-mgr-ts repository.

  The definitions below are a shallow embedding of the connection lifecycle
  manager (src/connection-manager.ts), the tool invocation engine
  (tool-invoker.ts), the schema cache (src/schema-manager.ts) and the facade
  event wiring (mcp-manager.ts).  External collaborators (the registry lookup,
  the SDK transport construction, the protocol handshake, the remote call and
  the transport close) are modelled as an environment record carrying their
  outcomes; asynchronous methods are modelled as pure functions from the
  current state and environment to the new state, the list of emitted
  events, and an Except-valued outcome (a thrown error becomes .error).
-/

set_option linter.unusedVariables false

namespace McpMgr

/-- Association-list map mirroring the JavaScript Map operations the
repository uses: get returns the binding if present, set replaces an
existing binding in place or appends a new one, delete removes it. -/
def mapFind? {κ α : Type} [DecidableEq κ] : List (κ × α) → κ → Option α
  | [], _ => none
  | (k, v) :: rest, key => if k = key then some v else mapFind? rest key

/-- JavaScript Map.set: replace the binding in place when the key exists,
append otherwise. -/
def mapInsert {κ α : Type} [DecidableEq κ] : List (κ × α) → κ → α → List (κ × α)
  | [], key, v => [(key, v)]
  | (k, w) :: rest, key, v =>
      if k = key then (key, v) :: rest else (k, w) :: mapInsert rest key v

/-- JavaScript Map.delete: drop every binding for the key. -/
def mapErase {κ α : Type} [DecidableEq κ] : List (κ × α) → κ → List (κ × α)
  | [], _ => []
  | (k, v) :: rest, key =>
      if k = key then mapErase rest key else (k, v) :: mapErase rest key

theorem mapFind?_mapInsert {κ α : Type} [DecidableEq κ]
    (m : List (κ × α)) (key k : κ) (v : α) :
    mapFind? (mapInsert m key v) k = if key = k then some v else mapFind? m k := by
  induction m with
  | nil =>
    by_cases h : key = k <;> simp [mapInsert, mapFind?, h]
  | cons p rest ih =>
    obtain ⟨k0, v0⟩ := p
    by_cases h0 : k0 = key
    · subst h0
      by_cases h : k0 = k <;> simp [mapInsert, mapFind?, h]
    · by_cases h : k0 = k
      · subst h
        have hk : ¬ key = k0 := fun he => h0 he.symm
        simp [mapInsert, mapFind?, h0, hk]
      · simp [mapInsert, mapFind?, h0, h, ih]

theorem mapFind?_mapErase {κ α : Type} [DecidableEq κ]
    (m : List (κ × α)) (key k : κ) :
    mapFind? (mapErase m key) k = if key = k then none else mapFind? m k := by
  induction m with
  | nil =>
    by_cases h : key = k <;> simp [mapErase, mapFind?, h]
  | cons p rest ih =>
    obtain ⟨k0, v0⟩ := p
    by_cases h0 : k0 = key
    · subst h0
      by_cases h : k0 = k
      · subst h; simp [mapErase, ih]
      · simp [mapErase, mapFind?, h, ih]
    · by_cases h : k0 = k
      · subst h
        have hk : ¬ key = k0 := fun he => h0 he.symm
        simp [mapErase, mapFind?, h0, hk]
      · simp [mapErase, mapFind?, h0, h, ih]

/-- Connection status values, src/types (McpConnection.status). -/
inductive ConnStatus
  | connecting
  | connected
  | disconnected
  | error
deriving DecidableEq

/-- String rendering used when a status is interpolated into an error
message. -/
def ConnStatus.toString : ConnStatus → String
  | .connecting => "connecting"
  | .connected => "connected"
  | .disconnected => "disconnected"
  | .error => "error"

/-- Server configuration (src/types McpServerConfig); the env merging with
process.env happens inside transport construction, which is external. -/
structure McpServerConfig where
  command : String
  args : List String
  env : List (String × String) := []
  workingDir : Option String := none
deriving DecidableEq

/-- The error taxonomy of src/errors.ts, restricted to the classes the
embedded operations construct. -/
inductive McpError
  | serverNotFound (serverName : String)
  | connectionError (serverName : String) (msg : String)
  | processError (serverName : String) (msg : String)
  | toolCallError (serverName : String) (toolName : String) (msg : String)
deriving DecidableEq

/-- The message each error class passes to super() in src/errors.ts. -/
def McpError.message : McpError → String
  | .serverNotFound n => "Server \"" ++ n ++ "\" not found or not registered."
  | .connectionError n m => "Connection error for server \"" ++ n ++ "\": " ++ m
  | .processError n m => "Process error for server \"" ++ n ++ "\": " ++ m
  | .toolCallError n t m =>
      "Tool call error for \"" ++ t ++ "\" on server \"" ++ n ++ "\": " ++ m

/-- A connection record (src/types McpConnection).  The client and transport
handles are owned exclusively by the manager and never inspected by the
claims, so they are not carried explicitly. -/
structure McpConnection where
  serverName : String
  status : ConnStatus
  lastError : Option McpError := none
  config : McpServerConfig
deriving DecidableEq

/-- The payload of the connectionStatusChanged event. -/
structure StatusEvent where
  serverName : String
  status : ConnStatus
  error : Option McpError := none
deriving DecidableEq

/-- The state of the ConnectionManager: its connections map. -/
abbrev Connections := List (String × McpConnection)

/-- ConnectionManager.updateStatus (the private status updater): mutate the
record and emit connectionStatusChanged, suppressing the emission when the
stored status and error are unchanged; for an untracked name emit only for
the terminal statuses disconnected and error, and warn (emit nothing) for
any other status. -/
def updateStatus (conns : Connections) (serverName : String)
    (status : ConnStatus) (error : Option McpError) :
    Connections × List StatusEvent :=
  match mapFind? conns serverName with
  | some connection =>
      if connection.status = status ∧ connection.lastError = error then
        (conns, [])
      else
        (mapInsert conns serverName
          { connection with status := status, lastError := error },
         [⟨serverName, status, error⟩])
  | none =>
      if status = .disconnected ∨ status = .error then
        (conns, [⟨serverName, status, error⟩])
      else
        (conns, [])

/-- Outcomes of the external collaborators during one lifecycle operation:
the registry lookup, the StdioClientTransport construction, the
client.connect handshake and the transport.close call, together with the
message of the underlying exception when an outcome is a failure. -/
structure ConnectEnv where
  registry : String → Option McpServerConfig
  ctorOk : Bool
  ctorErrMsg : String := ""
  handshakeOk : Bool
  handshakeErrMsg : String := ""
  closeOk : Bool
  closeErrMsg : String := ""

/-- Result of ConnectionManager.disconnect: the new connections map and the
events emitted.  Every throw inside disconnect is caught, so the returned
promise always resolves; outcome records that. -/
structure DisconnectResult where
  conns : Connections
  events : List StatusEvent
  outcome : Except McpError Unit

/-- ConnectionManager.disconnect: a no-op for an untracked name; otherwise
close the transport when the record is connecting or connected (on a close
failure transition to error, delete the record and return early), and
otherwise transition to disconnected and delete the record. -/
def disconnect (env : ConnectEnv) (conns : Connections)
    (serverName : String) : DisconnectResult :=
  match mapFind? conns serverName with
  | none => ⟨conns, [], .ok ()⟩
  | some connection =>
      if (connection.status = .connecting ∨ connection.status = .connected)
          ∧ env.closeOk = false then
        let err := McpError.connectionError serverName
          ("Failed to close transport: " ++ env.closeErrMsg)
        let r := updateStatus conns serverName .error (some err)
        ⟨mapErase r.1 serverName, r.2, .ok ()⟩
      else
        let r := updateStatus conns serverName .disconnected none
        ⟨mapErase r.1 serverName, r.2, .ok ()⟩

/-- Result of ConnectionManager.connect.  spawnAttempted records whether the
StdioClientTransport constructor (which spawns the worker process) was
reached; closeAttempted records the best-effort transport.close after a
failed handshake. -/
structure ConnectResult where
  conns : Connections
  events : List StatusEvent
  outcome : Except McpError Unit
  spawnAttempted : Bool
  closeAttempted : Bool

/-- The body of ConnectionManager.connect after the already-connected check
and the cleanup disconnect: update status to connecting, resolve the config
(a missing config is a terminal error transition and a ServerNotFoundError),
construct the transport (a construction failure is a terminal error
transition and a ProcessError), store the partial record, then handshake:
on success transition to connected; on failure close the transport
best-effort, transition to error, delete the record and rethrow as a
ConnectionError. -/
def connectBody (env : ConnectEnv) (conns : Connections)
    (serverName : String) : ConnectResult :=
  let r1 := updateStatus conns serverName .connecting none
  match env.registry serverName with
  | none =>
      let err := McpError.serverNotFound serverName
      let r2 := updateStatus r1.1 serverName .error (some err)
      ⟨r2.1, r1.2 ++ r2.2, .error err, false, false⟩
  | some config =>
      if env.ctorOk = false then
        let err := McpError.processError serverName
          ("Transport creation failed: " ++ env.ctorErrMsg)
        let r2 := updateStatus r1.1 serverName .error (some err)
        ⟨r2.1, r1.2 ++ r2.2, .error err, true, false⟩
      else
        let connection : McpConnection :=
          ⟨serverName, .connecting, none, config⟩
        let c2 := mapInsert r1.1 serverName connection
        if env.handshakeOk then
          let r3 := updateStatus c2 serverName .connected none
          ⟨r3.1, r1.2 ++ r3.2, .ok (), true, false⟩
        else
          let err := McpError.connectionError serverName
            ("MCP connection failed: " ++ env.handshakeErrMsg)
          let r3 := updateStatus c2 serverName .error (some err)
          ⟨mapErase r3.1 serverName, r1.2 ++ r3.2, .error err, true, true⟩

/-- ConnectionManager.connect: warn and return when the record is already
connected or connecting; tear an existing terminal record down first with
disconnect; then run the connect body. -/
def connect (env : ConnectEnv) (conns : Connections)
    (serverName : String) : ConnectResult :=
  match mapFind? conns serverName with
  | some existingConnection =>
      if existingConnection.status = .connected
          ∨ existingConnection.status = .connecting then
        ⟨conns, [], .ok (), false, false⟩
      else
        let d := disconnect env conns serverName
        let r := connectBody env d.conns serverName
        ⟨r.conns, d.events ++ r.events, r.outcome,
          r.spawnAttempted, r.closeAttempted⟩
  | none => connectBody env conns serverName

/-- ConnectionManager.getStatus: the tracked status, or disconnected for an
untracked name. -/
def getStatus (conns : Connections) (serverName : String) : ConnStatus :=
  match mapFind? conns serverName with
  | some connection => connection.status
  | none => .disconnected

/-- ConnectionManager.getConnection: the record only when truly connected. -/
def getConnection (conns : Connections) (serverName : String) :
    Option McpConnection :=
  match mapFind? conns serverName with
  | some connection =>
      if connection.status = .connected then some connection else none
  | none => none

/-- ConnectionManager.getClient: the client handle of a connected record;
the handle itself is opaque, so the record stands in for it. -/
def getClient (conns : Connections) (serverName : String) :
    Option McpConnection :=
  getConnection conns serverName

/-- ConnectionManager.listConnectedServers. -/
def listConnectedServers (conns : Connections) : List String :=
  (conns.filter (fun p => p.2.status == ConnStatus.connected)).map
    (fun p => p.2.serverName)

/-- One entry of a content array, both as the raw envelope shape coming back
from the SDK and as the normalized shape of ToolCallResult.content; each
field may be absent in a loosely-typed remote response. -/
structure ContentItem where
  type : Option String := none
  text : Option String := none
  mimeType : Option String := none
deriving DecidableEq

/-- The normalized ToolCallResult of src/types. -/
structure ToolCallResult where
  success : Bool
  content : Option (List ContentItem) := none
  error : Option String := none
  isError : Option Bool := none
deriving DecidableEq

/-- The raw response envelope from client.callTool; the code treats it as
any, so both fields may be absent. -/
structure SdkResponse where
  isError : Option Bool := none
  content : Option (List ContentItem) := none
deriving DecidableEq

/-- The tag of a StreamUpdate (src/types). -/
inductive UpdateType
  | toolStart
  | toolEnd
  | text
  | err
  | usage
  | metadata
deriving DecidableEq

/-- Tool call arguments; the claims never inspect an argument value, so a
string-valued record suffices. -/
abbrev ToolArgs := List (String × String)

/-- The content payload carried by a StreamUpdate: the tool name and
arguments for tool_start, the normalized result for tool_end, and the error
message string for an error update. -/
inductive UpdateContent
  | callInfo (toolName : String) (args : ToolArgs)
  | callResult (r : ToolCallResult)
  | message (s : String)
deriving DecidableEq

/-- A StreamUpdate; isFinal is absent on tool_start, which is the same as
false under JavaScript truthiness. -/
structure StreamUpdate where
  type : UpdateType
  content : UpdateContent
  isFinal : Bool := false
deriving DecidableEq

/-- JavaScript truthiness of the Option-valued isError flag: only the
boolean true is truthy; false, null and undefined are falsy. -/
def isErrorTruthy (isError : Option Bool) : Bool :=
  isError = some true

/-- The JavaScript expression (s || d) on an optional string: the default
replaces both an absent value and the falsy empty string. -/
def jsOrDefault (s : Option String) (d : String) : String :=
  match s with
  | none => d
  | some str => if str = "" then d else str

/-- The result normalization inside ToolInvoker.callTool: success is the
negation of the truthiness of isError, content entries are copied with text
kept only for type text, error is the JSON string of the raw content when
isError is truthy (JSON.stringify of an absent content is itself absent),
and isError is copied unchanged.  stringify stands for JSON.stringify. -/
def normalizeResult (stringify : List ContentItem → String)
    (resp : SdkResponse) : ToolCallResult :=
  { success := ! isErrorTruthy resp.isError,
    content := resp.content.map (fun items => items.map (fun c =>
      { type := c.type,
        text := if c.type = some "text" then c.text else none,
        mimeType := c.mimeType })),
    error := if isErrorTruthy resp.isError then resp.content.map stringify
             else none,
    isError := resp.isError }

/-- Result of ToolInvoker.callTool: the updates delivered to the onUpdate
callback in order, the outcome (a thrown error becomes .error), and whether
the call was forwarded to the protocol client. -/
structure ToolCallOutcome where
  updates : List StreamUpdate
  outcome : Except McpError ToolCallResult
  forwarded : Bool

/-- ToolInvoker.callTool.  sdkCall is the behaviour of the external
client.callTool: either a response envelope or the message of a thrown
exception.  Precondition checks: with no client handle, fail with
ServerNotFoundError when the status is disconnected and with a
ConnectionError otherwise.  Then: deliver tool_start, run the call, deliver
tool_end carrying the normalized result, and when the envelope flagged an
error throw a ToolCallError, which the catch block turns into one more
delivered error update before rethrowing; an exception from the call itself
is delivered as an error update and wrapped into a ToolCallError. -/
def callTool (stringify : List ContentItem → String)
    (conns : Connections) (serverName toolName : String) (args : ToolArgs)
    (sdkCall : Except String SdkResponse) (hasCallback : Bool) :
    ToolCallOutcome :=
  match getClient conns serverName with
  | none =>
      if getStatus conns serverName = .disconnected then
        ⟨[], .error (.serverNotFound serverName), false⟩
      else
        ⟨[], .error (.connectionError serverName
          ("Server is not connected (status: "
            ++ (getStatus conns serverName).toString
            ++ "). Cannot call tool.")), false⟩
  | some _ =>
      let startUpdates : List StreamUpdate :=
        if hasCallback then [⟨.toolStart, .callInfo toolName args, false⟩]
        else []
      match sdkCall with
      | .error msg =>
          let errUpdates : List StreamUpdate :=
            if hasCallback then [⟨.err, .message msg, true⟩] else []
          ⟨startUpdates ++ errUpdates,
           .error (.toolCallError serverName toolName
             ("Failed to call tool: " ++ msg)),
           true⟩
      | .ok resp =>
          let result := normalizeResult stringify resp
          let endUpdates : List StreamUpdate :=
            if hasCallback then [⟨.toolEnd, .callResult result, true⟩]
            else []
          if isErrorTruthy result.isError then
            let errorMessage :=
              jsOrDefault result.error "Tool reported an unspecified error"
            let thrown := McpError.toolCallError serverName toolName
              errorMessage
            let errUpdates : List StreamUpdate :=
              if hasCallback then [⟨.err, .message thrown.message, true⟩]
              else []
            ⟨startUpdates ++ endUpdates ++ errUpdates, .error thrown, true⟩
          else
            ⟨startUpdates ++ endUpdates, .ok result, true⟩

/-- A raw tool descriptor from the remote listTools response. -/
structure RawTool where
  name : String
  description : Option String := none
  inputSchema : Option String := none
  memoizable : Option Bool := none
deriving DecidableEq

/-- A ToolDefinition (src/types); inputSchema is an opaque schema value,
modelled as a string, with the empty-object default standing in for the
literal empty object the code substitutes. -/
structure ToolDefinition where
  name : String
  description : Option String := none
  inputSchema : String := ""
  memoizable : Option Bool := none
deriving DecidableEq

/-- A cached per-server mapping of tool names to definitions. -/
abbrev ToolMap := List (String × ToolDefinition)

/-- The SchemaManager state.  Map objects have identity in JavaScript, so
the cached mappings live in a small store of references: cache binds a
server name to the reference of its cached Map, store binds references to
Map contents, and nextRef is the next fresh reference.  Allocating a fresh
reference models the new Map(...) copies the code makes. -/
structure SchemaState where
  cache : List (String × Nat)
  store : List (Nat × ToolMap)
  nextRef : Nat

/-- Allocate a fresh Map object holding the given contents, as new Map(m)
does. -/
def allocMap (st : SchemaState) (m : ToolMap) : SchemaState × Nat :=
  ({ st with store := mapInsert st.store st.nextRef m,
             nextRef := st.nextRef + 1 },
   st.nextRef)

/-- The toolsMap construction in SchemaManager.listTools: fold the response
into a name-keyed mapping (a later duplicate overwrites an earlier one),
defaulting an absent inputSchema to the empty object. -/
def buildToolsMap (tools : List RawTool) : ToolMap :=
  tools.foldl (fun m tool =>
    mapInsert m tool.name
      ⟨tool.name, tool.description, tool.inputSchema.getD "",
        tool.memoizable⟩) []

/-- Result of SchemaManager.listTools: the new schema state, the reference
of the returned Map (or the thrown error), and whether the remote discovery
call was performed. -/
structure ListToolsResult where
  state : SchemaState
  outcome : Except McpError Nat
  didFetch : Bool

/-- SchemaManager.listTools.  fetch is the behaviour of the external
client.listTools: the raw descriptors or the message of a thrown exception.
On a cache hit, return a fresh copy of the cached Map without touching the
connection manager.  On a miss, resolve a client handle (ConnectionError
when the status is some non-disconnected value, ServerNotFoundError
otherwise), perform the discovery call, store the built mapping in the
cache and return a fresh copy of it; a discovery failure deletes any cache
entry for the name and is wrapped into a ConnectionError. -/
def listTools (conns : Connections) (st : SchemaState) (serverName : String)
    (fetch : Except String (List RawTool)) : ListToolsResult :=
  match mapFind? st.cache serverName with
  | some ref =>
      let cached := (mapFind? st.store ref).getD []
      let a := allocMap st cached
      ⟨a.1, .ok a.2, false⟩
  | none =>
      match getClient conns serverName with
      | none =>
          if getStatus conns serverName ≠ .disconnected then
            ⟨st, .error (.connectionError serverName
              ("Server is not connected (status: "
                ++ (getStatus conns serverName).toString
                ++ "). Cannot list tools.")), false⟩
          else
            ⟨st, .error (.serverNotFound serverName), false⟩
      | some _ =>
          match fetch with
          | .ok tools =>
              let toolsMap := buildToolsMap tools
              let a1 := allocMap st toolsMap
              let st2 := { a1.1 with
                cache := mapInsert a1.1.cache serverName a1.2 }
              let a2 := allocMap st2 toolsMap
              ⟨a2.1, .ok a2.2, true⟩
          | .error msg =>
              ⟨{ st with cache := mapErase st.cache serverName },
               .error (.connectionError serverName
                 ("Failed to list tools: " ++ msg)),
               true⟩

/-- SchemaManager.invalidateCache: drop the cached mapping for the name. -/
def invalidateCache (st : SchemaState) (serverName : String) : SchemaState :=
  { st with cache := mapErase st.cache serverName }

/-- The connectionStatusChanged listener installed by the McpManager
constructor (mcp-manager.ts): re-broadcast the event and invalidate the
schema cache when the new status is disconnected or error.  The connection
state is not an input of the handler at all; it is returned unchanged to
record that the handler never touches it. -/
def onConnectionStatusChanged (conns : Connections) (st : SchemaState)
    (ev : StatusEvent) : Connections × SchemaState :=
  (conns,
   if ev.status = .disconnected ∨ ev.status = .error then
     invalidateCache st ev.serverName
   else st)

/-- The invariant of the live-connections map: every tracked record is in a
non-terminal status. -/
def StatusInv (conns : Connections) : Prop :=
  ∀ k c, mapFind? conns k = some c →
    c.status = ConnStatus.connecting ∨ c.status = ConnStatus.connected

/-- When no client handle resolves, the status is not connected. -/
theorem getClient_none_status (conns : Connections) (n : String)
    (h : getClient conns n = none) :
    getStatus conns n ≠ ConnStatus.connected := by
  cases hf : mapFind? conns n with
  | none => simp [getStatus, hf]
  | some c0 =>
      simp only [getClient, getConnection, hf] at h
      by_cases hs : c0.status = ConnStatus.connected
      · simp [hs] at h
      · simpa [getStatus, hf] using hs

/-- When a client handle resolves, the status is connected. -/
theorem getClient_some_status (conns : Connections) (n : String)
    (c : McpConnection) (h : getClient conns n = some c) :
    getStatus conns n = ConnStatus.connected := by
  cases hf : mapFind? conns n with
  | none => simp [getClient, getConnection, hf] at h
  | some c0 =>
      simp only [getClient, getConnection, hf] at h
      by_cases hs : c0.status = ConnStatus.connected
      · simpa [getStatus, hf] using hs
      · simp [hs] at h

/-- When the status is connected, a client handle resolves. -/
theorem getStatus_connected_getClient (conns : Connections) (n : String)
    (h : getStatus conns n = ConnStatus.connected) :
    ∃ c, getClient conns n = some c := by
  cases hf : mapFind? conns n with
  | none => simp [getStatus, hf] at h
  | some c0 =>
      simp only [getStatus, hf] at h
      exact ⟨c0, by simp [getClient, getConnection, hf, h]⟩

/-- A no-record status update to connecting changes nothing and emits
nothing: connecting is not one of the terminal statuses the updater is
willing to emit for an untracked name. -/
theorem updateStatus_connecting_absent (conns : Connections) (n : String)
    (h : mapFind? conns n = none) :
    updateStatus conns n ConnStatus.connecting none = (conns, []) := by
  simp [updateStatus, h]

/-- The status updater leaves every other key alone. -/
theorem mapFind?_updateStatus_ne (conns : Connections) (n : String)
    (status : ConnStatus) (err : Option McpError) (k : String)
    (hk : ¬ n = k) :
    mapFind? (updateStatus conns n status err).1 k = mapFind? conns k := by
  cases hf : mapFind? conns n with
  | none =>
      simp only [updateStatus, hf]
      split <;> rfl
  | some c0 =>
      simp only [updateStatus, hf]
      split
      · rfl
      · simp [mapFind?_mapInsert, hk]

/-- Every event the status updater emits carries the status it was called
with. -/
theorem updateStatus_events_status (conns : Connections) (n : String)
    (status : ConnStatus) (err : Option McpError) :
    ∀ e ∈ (updateStatus conns n status err).2, e.status = status := by
  cases hf : mapFind? conns n with
  | none =>
      simp only [updateStatus, hf]
      split
      · intro e he
        simp only [List.mem_singleton] at he
        subst he
        rfl
      · simp
  | some c0 =>
      simp only [updateStatus, hf]
      split
      · simp
      · intro e he
        simp only [List.mem_singleton] at he
        subst he
        rfl

/-- After a disconnect the name is untracked, whatever happened. -/
theorem mapFind?_disconnect_self (env : ConnectEnv) (conns : Connections)
    (n : String) :
    mapFind? (disconnect env conns n).conns n = none := by
  cases hf : mapFind? conns n with
  | none =>
      simp only [disconnect, hf]
  | some c0 =>
      simp only [disconnect, hf]
      split <;> simp [mapFind?_mapErase]

/-- Every event disconnect emits is an error or a disconnected event. -/
theorem disconnect_events_status (env : ConnectEnv) (conns : Connections)
    (n : String) :
    ∀ e ∈ (disconnect env conns n).events,
      e.status = ConnStatus.error ∨ e.status = ConnStatus.disconnected := by
  cases hf : mapFind? conns n with
  | none => simp [disconnect, hf]
  | some c0 =>
      simp only [disconnect, hf]
      split
      · intro e he
        exact Or.inl (updateStatus_events_status conns n ConnStatus.error _ e he)
      · intro e he
        exact Or.inr (updateStatus_events_status conns n ConnStatus.disconnected _ e he)

/-- When the connect body starts from an untracked name (which it always
does: the caller either found nothing or tore the old record down first),
it emits exactly one event, and never a connecting one. -/
theorem connectBody_events_char (env : ConnectEnv) (conns : Connections)
    (serverName : String) (h : mapFind? conns serverName = none) :
    (connectBody env conns serverName).events.length = 1
    ∧ ∀ e ∈ (connectBody env conns serverName).events,
        e.status ≠ ConnStatus.connecting := by
  cases hreg : env.registry serverName with
  | none =>
      simp [connectBody, hreg, updateStatus, h]
  | some config =>
      by_cases hctor : env.ctorOk = false
      · simp [connectBody, hreg, hctor, updateStatus, h]
      · by_cases hshake : env.handshakeOk
        · simp [connectBody, hreg, hctor, hshake, updateStatus, h,
            mapFind?_mapInsert]
        · simp [connectBody, hreg, hctor, hshake, updateStatus, h,
            mapFind?_mapInsert]

/-- connect never emits a connecting event: the connecting status update at
its start always runs against an untracked name. -/
theorem connect_no_connecting_event (env : ConnectEnv) (conns : Connections)
    (serverName : String) :
    ∀ e ∈ (connect env conns serverName).events,
      e.status ≠ ConnStatus.connecting := by
  cases hf : mapFind? conns serverName with
  | none =>
      simp only [connect, hf]
      exact (connectBody_events_char env conns serverName hf).2
  | some c0 =>
      simp only [connect, hf]
      split
      · simp
      · intro e he
        simp only [List.mem_append] at he
        rcases he with he | he
        · rcases disconnect_events_status env conns serverName e he with h1 | h1 <;>
            simp [h1]
        · exact (connectBody_events_char env _ serverName
            (mapFind?_disconnect_self env conns serverName)).2 e he

def cfg0 : McpServerConfig := { command := "echo", args := ["ok"] }

def env0 : ConnectEnv :=
  { registry := fun _ => some cfg0,
    ctorOk := true, handshakeOk := true, closeOk := true }

def conn0 : McpConnection :=
  { serverName := "S", status := ConnStatus.connected, config := cfg0 }

def conns0 : Connections := [("S", conn0)]

def stringify0 : List ContentItem → String := fun _ => "[]"

/-- C3: callTool on a name whose status is disconnected (including an
untracked name) fails with ServerNotFoundError and never with the
NotConnected ConnectionError; on any other non-connected status it fails
with the ConnectionError; and the call is forwarded to the protocol client
exactly when the status is connected. -/
theorem callTool_error_taxonomy
    (stringify : List ContentItem → String) (conns : Connections)
    (serverName toolName : String) (args : ToolArgs)
    (sdkCall : Except String SdkResponse) (hasCallback : Bool) :
    (getStatus conns serverName = ConnStatus.disconnected →
      (callTool stringify conns serverName toolName args sdkCall
          hasCallback).outcome
        = .error (.serverNotFound serverName))
    ∧ (getStatus conns serverName ≠ ConnStatus.disconnected →
       getStatus conns serverName ≠ ConnStatus.connected →
      (callTool stringify conns serverName toolName args sdkCall
          hasCallback).outcome
        = .error (.connectionError serverName
            ("Server is not connected (status: "
              ++ (getStatus conns serverName).toString
              ++ "). Cannot call tool.")))
    ∧ ((callTool stringify conns serverName toolName args sdkCall
          hasCallback).forwarded = true
        ↔ getStatus conns serverName = ConnStatus.connected) := by
  cases hc : getClient conns serverName with
  | none =>
      have hnc := getClient_none_status conns serverName hc
      refine ⟨?_, ?_, ?_⟩
      · intro hd
        simp [callTool, hc, hd]
      · intro hd _
        simp [callTool, hc, hd]
      · simp only [callTool, hc]
        split <;> simpa using fun h => absurd h hnc
  | some c =>
      have hcs := getClient_some_status conns serverName c hc
      refine ⟨?_, ?_, ?_⟩
      · intro hd
        rw [hcs] at hd
        cases hd
      · intro _ hd
        exact absurd hcs hd
      · rcases sdkCall with msg | resp
        · simp [callTool, hc, hcs]
        · by_cases hE :
            isErrorTruthy (normalizeResult stringify resp).isError <;>
            simp [callTool, hc, hcs, hE]

/-- C3 witness: on an empty connections map the status is disconnected and
the failure is ServerNotFoundError; on the connected fixture the call is
forwarded. -/
theorem callTool_error_taxonomy_witness :
    (callTool stringify0 [] "S" "t" [] (.ok {}) true).outcome
      = .error (.serverNotFound "S")
    ∧ (callTool stringify0 conns0 "S" "t" [] (.ok {}) true).forwarded = true :=
  ⟨(callTool_error_taxonomy stringify0 [] "S" "t" [] (.ok {}) true).1 rfl,
   (callTool_error_taxonomy stringify0 conns0 "S" "t" [] (.ok {}) true).2.2.mpr
     (by decide)⟩

/-- C4: the normalized result has success equal to the negation of the
truthiness of the isError flag and copies the flag unchanged; a returned
result never has isError true, because an envelope flagging an error is
turned into a thrown ToolCallError carrying the stringified server error
payload. -/
theorem callTool_isError_is_failure
    (stringify : List ContentItem → String) (resp : SdkResponse)
    (conns : Connections) (serverName toolName : String) (args : ToolArgs)
    (hasCallback : Bool) :
    ((normalizeResult stringify resp).success
      = ! isErrorTruthy resp.isError)
    ∧ ((normalizeResult stringify resp).isError = resp.isError)
    ∧ (∀ r, (callTool stringify conns serverName toolName args (.ok resp)
          hasCallback).outcome = .ok r → isErrorTruthy r.isError = false)
    ∧ (resp.isError = some true →
       getStatus conns serverName = ConnStatus.connected →
       (callTool stringify conns serverName toolName args (.ok resp)
          hasCallback).outcome
         = .error (.toolCallError serverName toolName
             (jsOrDefault (resp.content.map stringify)
               "Tool reported an unspecified error"))) := by
  refine ⟨rfl, rfl, ?_, ?_⟩
  · intro r hr
    cases hc : getClient conns serverName with
    | none =>
        simp only [callTool, hc] at hr
        split at hr <;> cases hr
    | some c =>
        simp only [callTool, hc] at hr
        by_cases hE : isErrorTruthy (normalizeResult stringify resp).isError
        · rw [if_pos hE] at hr
          cases hr
        · rw [if_neg hE] at hr
          cases hr
          simpa using hE
  · intro hE hcs
    obtain ⟨c, hc⟩ := getStatus_connected_getClient conns serverName hcs
    simp [callTool, hc, normalizeResult, isErrorTruthy, hE]

def respErr0 : SdkResponse :=
  { isError := some true,
    content := some [{ type := some "text", text := some "boom" }] }

/-- Whether the remote envelope behind the call flagged an error. -/
def sdkCallFlaggedError (sdkCall : Except String SdkResponse) : Bool :=
  match sdkCall with
  | .ok resp => isErrorTruthy resp.isError
  | .error _ => false

/-- C1 (amended): with a callback supplied and a client handle available,
the delivered update sequence always ends with an update whose isFinal is
true; on the success path it is the single final update (the tool_end
update carrying the returned result), and on the exception path the single
final update is the error update; but when the remote envelope has isError
true, two updates with isFinal true are delivered, a tool_end followed by
the error update, which is the last one. -/
theorem callTool_final_updates_amended
    (stringify : List ContentItem → String) (conns : Connections)
    (serverName toolName : String) (args : ToolArgs)
    (sdkCall : Except String SdkResponse)
    (h : getStatus conns serverName = ConnStatus.connected) :
    ((callTool stringify conns serverName toolName args sdkCall
        true).updates.countP (fun u => u.isFinal)
      = if sdkCallFlaggedError sdkCall then 2 else 1)
    ∧ (Option.any (fun u => u.isFinal)
        ((callTool stringify conns serverName toolName args sdkCall
          true).updates.getLast?) = true)
    ∧ (∀ r, (callTool stringify conns serverName toolName args sdkCall
          true).outcome = .ok r →
        (callTool stringify conns serverName toolName args sdkCall
          true).updates.getLast?
          = some ⟨UpdateType.toolEnd, UpdateContent.callResult r, true⟩)
    ∧ (∀ e, (callTool stringify conns serverName toolName args sdkCall
          true).outcome = .error e →
        Option.any (fun u => decide (u.type = UpdateType.err))
          ((callTool stringify conns serverName toolName args sdkCall
            true).updates.getLast?) = true) := by
  obtain ⟨c, hc⟩ := getStatus_connected_getClient conns serverName h
  rcases sdkCall with msg | resp
  · refine ⟨?_, ?_, ?_, ?_⟩ <;>
      simp [callTool, hc, sdkCallFlaggedError]
  · by_cases hE : isErrorTruthy (normalizeResult stringify resp).isError
    · have hflag : sdkCallFlaggedError (.ok resp) = true := hE
      refine ⟨?_, ?_, ?_, ?_⟩ <;>
        simp [callTool, hc, hflag, hE]
    · have hflag : sdkCallFlaggedError (.ok resp) = false := by
        simpa [sdkCallFlaggedError] using hE
      refine ⟨?_, ?_, ?_, ?_⟩ <;>
        simp [callTool, hc, hflag, hE]

/-- C1 witness: on the connected fixture with a clean envelope, exactly one
final update is delivered and it is the last one. -/
theorem callTool_final_updates_amended_witness :
    (callTool stringify0 conns0 "S" "t" [] (.ok {}) true).updates.countP
      (fun u => u.isFinal) = 1 := by
  have h := (callTool_final_updates_amended stringify0 conns0 "S" "t" []
    (.ok {}) (by decide)).1
  simpa [sdkCallFlaggedError, isErrorTruthy] using h

/-- C1 counterexample: on the connected fixture, an envelope with isError
true makes callTool deliver two updates with isFinal true (the tool_end
update and then the error update), refuting that no invocation ever
delivers more than one final update. -/
theorem callTool_single_final_update_counterexample :
    ¬ ((callTool stringify0 conns0 "S" "t" [] (.ok respErr0)
        true).updates.countP (fun u => u.isFinal) ≤ 1) := by decide

/-- C4 witness: on the connected fixture, an envelope flagging an error
yields the thrown ToolCallError carrying the stringified payload. -/
theorem callTool_isError_is_failure_witness :
    (callTool stringify0 conns0 "S" "t" [] (.ok respErr0) true).outcome
      = .error (.toolCallError "S" "t" "[]") := by
  have h := (callTool_isError_is_failure stringify0 respErr0 conns0 "S" "t"
    [] true).2.2.2 rfl (by decide)
  simpa using h

/-- C2 (amended): every materialized transition of connect and disconnect
emits connectionStatusChanged exactly once, except that the connecting
status update at the start of connect is never emitted at all (the record
is not yet stored and connecting is not a terminal status, so the updater
only warns): connect emits no connecting event ever, a fresh connect emits
exactly one event, a disconnect of an untracked name emits nothing, a
disconnect of a tracked non-terminal record emits exactly one event, and a
status update leaving both the stored status and error unchanged emits
nothing. -/
theorem statusChanged_emissions_amended
    (env : ConnectEnv) (conns : Connections) (serverName : String)
    (c : McpConnection) (status : ConnStatus) (err : Option McpError) :
    ((connect env conns serverName).events.all
        (fun e => decide (e.status ≠ ConnStatus.connecting)) = true)
    ∧ (mapFind? conns serverName = none →
        (connect env conns serverName).events.length = 1)
    ∧ (mapFind? conns serverName = none →
        (disconnect env conns serverName).events = [])
    ∧ (mapFind? conns serverName = some c →
        (c.status = ConnStatus.connecting ∨ c.status = ConnStatus.connected) →
        (disconnect env conns serverName).events.length = 1)
    ∧ (mapFind? conns serverName = some c → c.status = status →
        c.lastError = err →
        (updateStatus conns serverName status err).2 = []) := by
  refine ⟨?_, ?_, ?_, ?_, ?_⟩
  · rw [List.all_eq_true]
    intro e he
    simpa using connect_no_connecting_event env conns serverName e he
  · intro hf
    simp only [connect, hf]
    exact (connectBody_events_char env conns serverName hf).1
  · intro hf
    simp [disconnect, hf]
  · intro hf hst
    by_cases hclose : env.closeOk = false
    · rcases hst with h | h <;>
        simp [disconnect, hf, hclose, updateStatus, h]
    · rcases hst with h | h <;>
        simp [disconnect, hf, hclose, updateStatus, h]
  · intro hf hs he
    simp [updateStatus, hf, hs, he]

/-- C2 witness: a fresh connect emits exactly one event. -/
theorem statusChanged_emissions_amended_witness :
    (connect env0 [] "S").events.length = 1 :=
  (statusChanged_emissions_amended env0 [] "S" conn0 ConnStatus.connected
    none).2.1 rfl

/-- C2 counterexample: a successful connect of a fresh name ran through the
absent-to-connecting transition (the operation completed, so the record
passed through connecting on its way to connected), yet the emitted events
contain no connecting event at all, only the single connected one -
refuting that the transition into connecting is emitted exactly once. -/
theorem connecting_never_emitted_counterexample :
    (connect env0 [] "S").outcome = .ok ()
    ∧ (connect env0 [] "S").events = [⟨"S", ConnStatus.connected, none⟩]
    ∧ (connect env0 [] "S").events.countP
        (fun e => decide (e.status = ConnStatus.connecting)) = 0 := by
  refine ⟨rfl, by decide, by decide⟩

/-- C5: for a name that is untracked and not resolvable in the registry,
getStatus answers disconnected, connect fails with ServerNotFoundError
after emitting a single terminal error transition, no spawn is attempted,
and no record is left behind, so getStatus still answers disconnected
afterwards. -/
theorem connect_unregistered_fails
    (env : ConnectEnv) (conns : Connections) (serverName : String)
    (hreg : env.registry serverName = none)
    (habs : mapFind? conns serverName = none) :
    getStatus conns serverName = ConnStatus.disconnected
    ∧ (connect env conns serverName).outcome
        = .error (.serverNotFound serverName)
    ∧ (connect env conns serverName).events
        = [⟨serverName, ConnStatus.error,
            some (.serverNotFound serverName)⟩]
    ∧ (connect env conns serverName).spawnAttempted = false
    ∧ mapFind? (connect env conns serverName).conns serverName = none
    ∧ getStatus (connect env conns serverName).conns serverName
        = ConnStatus.disconnected := by
  refine ⟨by simp [getStatus, habs], ?_, ?_, ?_, ?_, ?_⟩ <;>
    simp [connect, connectBody, habs, hreg, updateStatus, getStatus]

def envNoReg : ConnectEnv :=
  { registry := fun _ => none,
    ctorOk := true, handshakeOk := true, closeOk := true }

/-- C5 witness: connecting a never-registered name on an empty manager
fails with ServerNotFoundError and leaves the name untracked. -/
theorem connect_unregistered_fails_witness :
    (connect envNoReg [] "S").outcome = .error (.serverNotFound "S")
    ∧ mapFind? (connect envNoReg [] "S").conns "S" = none :=
  ⟨(connect_unregistered_fails envNoReg [] "S" rfl rfl).2.1,
   (connect_unregistered_fails envNoReg [] "S" rfl rfl).2.2.2.2.1⟩

/-- C6: a connect issued while the record for the name is connecting or
connected is a pure no-op (no state change, no event, no transport
construction); consequently a fresh successful connect followed by a second
connect leaves exactly the one record, the second call changes nothing, and
exactly one connected transition event is emitted in total. -/
theorem connect_second_noop
    (env : ConnectEnv) (conns : Connections) (serverName : String)
    (cfg : McpServerConfig) :
    ((getStatus conns serverName = ConnStatus.connecting
        ∨ getStatus conns serverName = ConnStatus.connected) →
      connect env conns serverName = ⟨conns, [], .ok (), false, false⟩)
    ∧ (mapFind? conns serverName = none →
       env.registry serverName = some cfg →
       env.ctorOk = true → env.handshakeOk = true →
       connect env (connect env conns serverName).conns serverName
          = ⟨(connect env conns serverName).conns, [], .ok (), false, false⟩
       ∧ ((connect env conns serverName).events
           ++ (connect env (connect env conns serverName).conns
                serverName).events).countP
             (fun e => decide (e.status = ConnStatus.connected)) = 1) := by
  constructor
  · intro hst
    cases hf : mapFind? conns serverName with
    | none => rcases hst with h | h <;> simp [getStatus, hf] at h
    | some c0 =>
        have hs : c0.status = ConnStatus.connecting
            ∨ c0.status = ConnStatus.connected := by
          simpa [getStatus, hf] using hst
        rcases hs with h | h <;> simp [connect, hf, h]
  · intro hf hreg hctor hshake
    have hr1 : connect env conns serverName
        = ⟨mapInsert (mapInsert conns serverName
              ⟨serverName, ConnStatus.connecting, none, cfg⟩) serverName
              ⟨serverName, ConnStatus.connected, none, cfg⟩,
           [⟨serverName, ConnStatus.connected, none⟩],
           .ok (), true, false⟩ := by
      simp [connect, connectBody, hf, hreg, hctor, hshake, updateStatus,
        mapFind?_mapInsert]
    have hf2 : mapFind? (connect env conns serverName).conns serverName
        = some ⟨serverName, ConnStatus.connected, none, cfg⟩ := by
      rw [hr1]
      simp [mapFind?_mapInsert]
    have hnoop : ∀ cs : Connections,
        mapFind? cs serverName
            = some ⟨serverName, ConnStatus.connected, none, cfg⟩ →
        connect env cs serverName = ⟨cs, [], .ok (), false, false⟩ := by
      intro cs hcs
      simp [connect, hcs]
    refine ⟨hnoop _ hf2, ?_⟩
    rw [hnoop _ hf2, hr1]
    simp

/-- C6 witness: the second connect after a fresh successful one is a no-op. -/
theorem connect_second_noop_witness :
    connect env0 (connect env0 [] "S").conns "S"
      = ⟨(connect env0 [] "S").conns, [], .ok (), false, false⟩ :=
  ((connect_second_noop env0 [] "S" cfg0).2 rfl rfl rfl rfl).1

/-- C7: failure paths never retain bookkeeping.  A handshake failure during
a fresh connect closes the transport best-effort, emits a single error
transition, removes the record (so getStatus answers disconnected and the
next connect starts from an absent record); a close failure during an
explicit disconnect of a live record emits a single error transition,
removes the record anyway, and the disconnect still resolves without
propagating the close error. -/
theorem failure_paths_clean_bookkeeping
    (env : ConnectEnv) (conns : Connections) (serverName : String)
    (cfg : McpServerConfig) (c : McpConnection) :
    ((mapFind? conns serverName = none →
      env.registry serverName = some cfg →
      env.ctorOk = true → env.handshakeOk = false →
      (connect env conns serverName).outcome
        = .error (.connectionError serverName
            ("MCP connection failed: " ++ env.handshakeErrMsg))
      ∧ (connect env conns serverName).closeAttempted = true
      ∧ (connect env conns serverName).events
          = [⟨serverName, ConnStatus.error,
              some (.connectionError serverName
                ("MCP connection failed: " ++ env.handshakeErrMsg))⟩]
      ∧ mapFind? (connect env conns serverName).conns serverName = none
      ∧ getStatus (connect env conns serverName).conns serverName
          = ConnStatus.disconnected))
    ∧ ((mapFind? conns serverName = some c →
        (c.status = ConnStatus.connecting ∨ c.status = ConnStatus.connected) →
        env.closeOk = false →
        (disconnect env conns serverName).outcome = .ok ()
        ∧ (disconnect env conns serverName).events
            = [⟨serverName, ConnStatus.error,
                some (.connectionError serverName
                  ("Failed to close transport: " ++ env.closeErrMsg))⟩]
        ∧ mapFind? (disconnect env conns serverName).conns serverName = none
        ∧ getStatus (disconnect env conns serverName).conns serverName
            = ConnStatus.disconnected)) := by
  constructor
  · intro hf hreg hctor hshake
    refine ⟨?_, ?_, ?_, ?_, ?_⟩ <;>
      simp [connect, connectBody, hf, hreg, hctor, hshake, updateStatus,
        mapFind?_mapInsert, mapFind?_mapErase, getStatus]
  · intro hf hst hclose
    refine ⟨?_, ?_, ?_, ?_⟩ <;>
      rcases hst with h | h <;>
      simp [disconnect, hf, hclose, updateStatus, h, mapFind?_mapErase,
        getStatus]

def envShakeFail : ConnectEnv :=
  { registry := fun _ => some cfg0,
    ctorOk := true, handshakeOk := false, handshakeErrMsg := "boom",
    closeOk := true }

/-- C7 witness: a failed handshake leaves the name untracked. -/
theorem failure_paths_clean_bookkeeping_witness :
    mapFind? (connect envShakeFail [] "S").conns "S" = none :=
  ((failure_paths_clean_bookkeeping envShakeFail [] "S" cfg0 conn0).1
    rfl rfl rfl rfl).2.2.2.1

/-- C8: after a first listTools populated the cache for a connected server,
a second listTools with no intervening invalidation is a pure cache hit: it
performs no remote discovery call (whatever the remote would have
answered), both calls return Maps with the same contents, and each call
returned a fresh Map object distinct from the cached one, so overwriting a
returned Map in the store leaves the cached mapping untouched. -/
theorem listTools_cache_hit_pure
    (conns : Connections) (st : SchemaState) (serverName : String)
    (tools : List RawTool) (fetch2 : Except String (List RawTool))
    (c : McpConnection)
    (hc : getClient conns serverName = some c)
    (hmiss : mapFind? st.cache serverName = none) :
    (listTools conns st serverName (.ok tools)).didFetch = true
    ∧ (listTools conns st serverName (.ok tools)).outcome
        = .ok (st.nextRef + 1)
    ∧ (listTools conns (listTools conns st serverName (.ok tools)).state
        serverName fetch2).didFetch = false
    ∧ (listTools conns (listTools conns st serverName (.ok tools)).state
        serverName fetch2).outcome = .ok (st.nextRef + 2)
    ∧ mapFind? (listTools conns (listTools conns st serverName
        (.ok tools)).state serverName fetch2).state.store (st.nextRef + 1)
        = some (buildToolsMap tools)
    ∧ mapFind? (listTools conns (listTools conns st serverName
        (.ok tools)).state serverName fetch2).state.store (st.nextRef + 2)
        = some (buildToolsMap tools)
    ∧ mapFind? (listTools conns (listTools conns st serverName
        (.ok tools)).state serverName fetch2).state.cache serverName
        = some st.nextRef
    ∧ (∀ m, mapFind? (mapInsert (listTools conns (listTools conns st
        serverName (.ok tools)).state serverName fetch2).state.store
          (st.nextRef + 1) m) st.nextRef = some (buildToolsMap tools))
    ∧ (∀ m, mapFind? (mapInsert (listTools conns (listTools conns st
        serverName (.ok tools)).state serverName fetch2).state.store
          (st.nextRef + 2) m) st.nextRef = some (buildToolsMap tools)) := by
  have h10 : ¬ st.nextRef + 1 = st.nextRef := by omega
  have h20 : ¬ st.nextRef + 2 = st.nextRef := by omega
  have h21 : ¬ st.nextRef + 2 = st.nextRef + 1 := by omega
  have hr1 : listTools conns st serverName (.ok tools)
      = ⟨⟨mapInsert st.cache serverName st.nextRef,
          mapInsert (mapInsert st.store st.nextRef (buildToolsMap tools))
            (st.nextRef + 1) (buildToolsMap tools),
          st.nextRef + 2⟩,
         .ok (st.nextRef + 1), true⟩ := by
    simp [listTools, hmiss, hc, allocMap]
  have hr2 : listTools conns (listTools conns st serverName
      (.ok tools)).state serverName fetch2
      = ⟨⟨mapInsert st.cache serverName st.nextRef,
          mapInsert (mapInsert (mapInsert st.store st.nextRef
              (buildToolsMap tools))
            (st.nextRef + 1) (buildToolsMap tools))
            (st.nextRef + 2) (buildToolsMap tools),
          st.nextRef + 3⟩,
         .ok (st.nextRef + 2), false⟩ := by
    rw [hr1]
    simp [listTools, mapFind?_mapInsert, allocMap, h10]
  refine ⟨?_, ?_, ?_, ?_, ?_, ?_, ?_, ?_, ?_⟩ <;>
    (try rw [hr2]) <;>
    simp [hr1, mapFind?_mapInsert, h10, h20, h21]

def rawTool0 : RawTool := { name := "t1" }

def schema0 : SchemaState := ⟨[], [], 0⟩

/-- C8 witness: on the connected fixture, the second listTools is a cache
hit performing no remote call. -/
theorem listTools_cache_hit_pure_witness :
    (listTools conns0 (listTools conns0 schema0 "S"
        (.ok [rawTool0])).state "S" (.ok [rawTool0])).didFetch = false :=
  (listTools_cache_hit_pure conns0 schema0 "S" [rawTool0] (.ok [rawTool0])
    conn0 (by decide) rfl).2.2.1

/-- C9: the facade listener invalidates the schema cache exactly on a
transition into disconnected or error, leaving the connection state
untouched, and the next listTools for that name then performs a fresh
remote discovery call instead of serving a cached mapping. -/
theorem cache_invalidated_on_terminal_transition
    (conns : Connections) (st : SchemaState) (ev : StatusEvent)
    (c : McpConnection) (fetch : Except String (List RawTool))
    (hstatus : ev.status = ConnStatus.disconnected
      ∨ ev.status = ConnStatus.error)
    (hc : getClient conns ev.serverName = some c) :
    (onConnectionStatusChanged conns st ev).1 = conns
    ∧ mapFind? (onConnectionStatusChanged conns st ev).2.cache
        ev.serverName = none
    ∧ (listTools conns (onConnectionStatusChanged conns st ev).2
        ev.serverName fetch).didFetch = true := by
  have hinv : (onConnectionStatusChanged conns st ev).2
      = invalidateCache st ev.serverName := by
    rcases hstatus with h | h <;> simp [onConnectionStatusChanged, h]
  have hm : mapFind? (invalidateCache st ev.serverName).cache
      ev.serverName = none := by
    simp [invalidateCache, mapFind?_mapErase]
  refine ⟨rfl, ?_, ?_⟩
  · rw [hinv]
    exact hm
  · rw [hinv]
    rcases fetch with msg | tools <;> simp [listTools, hm, hc]

def schemaCached0 : SchemaState := ⟨[("S", 0)], [(0, [])], 1⟩

/-- C9 witness: an error transition drops the cached entry for the name. -/
theorem cache_invalidated_on_terminal_transition_witness :
    mapFind? (onConnectionStatusChanged conns0 schemaCached0
      ⟨"S", ConnStatus.error, none⟩).2.cache "S" = none :=
  (cache_invalidated_on_terminal_transition conns0 schemaCached0
    ⟨"S", ConnStatus.error, none⟩ conn0 (.ok []) (Or.inr rfl)
    (by decide)).2.1

/-- The connect body preserves the live-map invariant when it starts from
an untracked name, which is the only way connect ever calls it. -/
theorem connectBody_statusInv (env : ConnectEnv) (conns : Connections)
    (n : String) (h : StatusInv conns) (habs : mapFind? conns n = none) :
    StatusInv (connectBody env conns n).conns := by
  cases hreg : env.registry n with
  | none =>
      simpa [connectBody, hreg, updateStatus, habs] using h
  | some config =>
      by_cases hctor : env.ctorOk = false
      · simpa [connectBody, hreg, hctor, updateStatus, habs] using h
      · by_cases hshake : env.handshakeOk
        · intro k c hk
          have hconns : (connectBody env conns n).conns
              = mapInsert (mapInsert conns n
                  ⟨n, ConnStatus.connecting, none, config⟩) n
                  ⟨n, ConnStatus.connected, none, config⟩ := by
            simp [connectBody, hreg, hctor, hshake, updateStatus, habs,
              mapFind?_mapInsert]
          rw [hconns, mapFind?_mapInsert] at hk
          by_cases hnk : n = k
          · rw [if_pos hnk] at hk
            cases hk
            exact Or.inr rfl
          · rw [if_neg hnk, mapFind?_mapInsert, if_neg hnk] at hk
            exact h k c hk
        · intro k c hk
          have hconns : (connectBody env conns n).conns
              = mapErase (mapInsert (mapInsert conns n
                  ⟨n, ConnStatus.connecting, none, config⟩) n
                  ⟨n, ConnStatus.error,
                    some (.connectionError n
                      ("MCP connection failed: " ++ env.handshakeErrMsg)),
                    config⟩) n := by
            simp [connectBody, hreg, hctor, hshake, updateStatus, habs,
              mapFind?_mapInsert]
          rw [hconns, mapFind?_mapErase] at hk
          by_cases hnk : n = k
          · rw [if_pos hnk] at hk
            cases hk
          · rw [if_neg hnk, mapFind?_mapInsert, if_neg hnk,
              mapFind?_mapInsert, if_neg hnk] at hk
            exact h k c hk

/-- disconnect preserves the live-map invariant. -/
theorem disconnect_statusInv (env : ConnectEnv) (conns : Connections)
    (n : String) (h : StatusInv conns) :
    StatusInv (disconnect env conns n).conns := by
  intro k c hk
  by_cases hnk : n = k
  · subst hnk
    rw [mapFind?_disconnect_self] at hk
    cases hk
  · have hother : mapFind? (disconnect env conns n).conns k
        = mapFind? conns k := by
      cases hf : mapFind? conns n with
      | none => simp [disconnect, hf]
      | some c0 =>
          simp only [disconnect, hf]
          split <;>
            rw [mapFind?_mapErase, if_neg hnk,
              mapFind?_updateStatus_ne _ _ _ _ _ hnk]
    rw [hother] at hk
    exact h k c hk

/-- C10: the live-connections invariant is preserved across the public
lifecycle operations: starting from a map where every tracked record is
connecting or connected, both connect and disconnect return maps with the
same property, because every path that moves a record into disconnected or
error also deletes it before returning. -/
theorem statusInv_preserved
    (env : ConnectEnv) (conns : Connections) (serverName : String)
    (h : StatusInv conns) :
    StatusInv (connect env conns serverName).conns
    ∧ StatusInv (disconnect env conns serverName).conns := by
  refine ⟨?_, disconnect_statusInv env conns serverName h⟩
  cases hf : mapFind? conns serverName with
  | none =>
      simp only [connect, hf]
      exact connectBody_statusInv env conns serverName h hf
  | some c0 =>
      simp only [connect, hf]
      split
      · exact h
      · exact connectBody_statusInv env _ serverName
          (disconnect_statusInv env conns serverName h)
          (mapFind?_disconnect_self env conns serverName)

/-- C10 witness: the invariant holds after connecting on the connected
fixture map. -/
theorem statusInv_preserved_witness :
    StatusInv (connect env0 conns0 "S").conns := by
  have h0 : StatusInv conns0 := by
    intro k c hk
    simp only [conns0, mapFind?] at hk
    split at hk
    · cases hk
      exact Or.inr rfl
    · cases hk
  exact (statusInv_preserved env0 conns0 "S" h0).1

end McpMgr
